import Mathlib

/-!
Shallow embedding of the document ingestion and retrieval pipeline of
`src/src/utils/document_processor.py` (class `DocumentProcessor`), together
with theorems settling the specification claims about it.

External effects (filesystem reads, the PDF/DOCX/Markdown/JSON libraries,
the AI chat-completion call, the clock, MD5) are modelled as explicit inputs
carried by a `FileModel`; every piece of logic written in the repository
itself (encoding fallback, extension dispatch, page concatenation, metadata
assembly, search scoring, sorting, statistics) is translated directly from
the source.

Note: the Python source writes `"\\n"` in its string literals -- a
two-character backslash-`n` sequence, not a newline.  The Lean strings below
reproduce those two characters exactly.
-/

namespace DocProc

/-- Python `str.lower()`, modelled as per-character lowercasing. -/
def lower (s : String) : String := String.mk (s.toList.map Char.toLower)

/-- Python `needle in hay` on strings: substring containment. -/
def containsSub (needle hay : String) : Bool :=
  decide (needle.toList <:+: hay.toList)

/-- A value stored in a record's format-metadata dictionary. -/
inductive MVal where
  | str (s : String)
  | num (n : Nat)
  | strList (l : List String)
deriving Repr, DecidableEq

/-- A format-metadata dictionary: insertion-ordered key/value pairs. -/
abbrev Metadata := List (String × MVal)

/-- The dictionary `process_document` returns for a successfully processed
file (all keys always present). -/
structure SuccessRecord where
  filename : String
  file_type : String
  file_size : Nat
  content : String
  content_length : Nat
  summary : String
  keywords : List String
  metadata : Metadata
  processed_at : String
  file_hash : String
deriving Repr, DecidableEq

/-- A corpus entry: either a full successful record, or the two-key failure
dictionary written by `process_all_documents` on a per-file error. -/
inductive DocRecord where
  | success (r : SuccessRecord)
  | failed (error : String) (processed_at : String)
deriving Repr, DecidableEq

/-- `error not in doc_info`. -/
def isSuccess : DocRecord → Bool
  | .success _ => true
  | .failed _ _ => false

/-- The content length a record contributes to statistics (failed records
are skipped by the source loop, i.e. contribute nothing). -/
def contentLen : DocRecord → Nat
  | .success r => r.content_length
  | .failed _ _ => 0

/-- The corpus: Python dict filename → record, in insertion order. -/
abbrev Corpus := List (String × DocRecord)

/-! ### Search engine (`search_documents`) -/

/-- One element of the list returned by `search_documents`. -/
structure ScoredResult where
  filename : String
  score : Nat
  matchedFields : List String
  summary : String
  keywords : List String
deriving Repr, DecidableEq

/-- The score/matches accumulation of the search loop body: +3 content,
+2 summary, +1 first matching keyword (the source breaks out of the keyword
loop after the first hit), +1 filename. -/
def scoreDoc (ql : String) (filename : String) (r : SuccessRecord) : Nat × List String :=
  ((if containsSub ql (lower r.content) then 3 else 0) +
   (if containsSub ql (lower r.summary) then 2 else 0) +
   (if r.keywords.any (fun kw => containsSub ql (lower kw)) then 1 else 0) +
   (if containsSub ql (lower filename) then 1 else 0),
   (if containsSub ql (lower r.content) then ["content"] else []) ++
   (if containsSub ql (lower r.summary) then ["summary"] else []) ++
   (if r.keywords.any (fun kw => containsSub ql (lower kw)) then ["keywords"] else []) ++
   (if containsSub ql (lower filename) then ["filename"] else []))

/-- The body of the `for filename, doc_info in documents.items()` loop:
failed records are skipped, zero-score records are dropped. -/
def searchEntry (ql : String) (p : String × DocRecord) : Option ScoredResult :=
  match p.2 with
  | .failed _ _ => none
  | .success r =>
      if 0 < (scoreDoc ql p.1 r).1 then
        some { filename := p.1, score := (scoreDoc ql p.1 r).1,
               matchedFields := (scoreDoc ql p.1 r).2,
               summary := r.summary, keywords := r.keywords }
      else none

/-- The `results` list before the final `sorted` call. -/
def searchUnsorted (query : String) (documents : Corpus) : List ScoredResult :=
  documents.filterMap (searchEntry (lower query))

/-- The comparison realising `sorted(results, key=lambda x: x[score],
reverse=True)`: descending by score, stable (CPython `sorted` is stable). -/
def scoreGe (a b : ScoredResult) : Bool := decide (b.score ≤ a.score)

/-- `DocumentProcessor.search_documents`. -/
def search_documents (query : String) (documents : Corpus) : List ScoredResult :=
  (searchUnsorted query documents).mergeSort scoreGe

/-! ### Corpus statistics (`get_document_stats`) -/

/-- The dictionary returned by `get_document_stats`.  The source computes
`average_content_length` with Python `/` (true division); it is modelled as
an exact rational. -/
structure DocStats where
  total_documents : Nat
  successful_processing : Nat
  failed_processing : Nat
  file_types : List (String × Nat)
  total_content_length : Nat
  average_content_length : ℚ
deriving Repr, DecidableEq

/-- `file_types[file_type] = file_types.get(file_type, 0) + 1` on an
insertion-ordered dict. -/
def bumpKey : List (String × Nat) → String → List (String × Nat)
  | [], k => [(k, 1)]
  | (k0, v) :: rest, k =>
      if k0 = k then (k0, v + 1) :: rest else (k0, v) :: bumpKey rest k

/-- Body of the statistics loop over `documents.values()`: failed records
are skipped; successful ones bump their type count and add their
`content_length`. -/
def statsStep (acc : List (String × Nat) × Nat) (p : String × DocRecord) :
    List (String × Nat) × Nat :=
  match p.2 with
  | .success r => (bumpKey acc.1 r.file_type, acc.2 + r.content_length)
  | .failed _ _ => acc

/-- `DocumentProcessor.get_document_stats`. -/
def get_document_stats (documents : Corpus) : DocStats :=
  let total := documents.length
  let successful := documents.countP (fun p => isSuccess p.2)
  let acc := documents.foldl statsStep ([], 0)
  { total_documents := total
    successful_processing := successful
    failed_processing := total - successful
    file_types := acc.1
    total_content_length := acc.2
    average_content_length :=
      if 0 < successful then (acc.2 : ℚ) / (successful : ℚ) else 0 }

/-! ### Document registry (`process_document`, `process_all_documents`) -/

/-- The distinguishable errors `process_document` raises:
`FileNotFoundError`, `ValueError` for an unsupported extension, and any
exception escaping an extractor. -/
inductive ProcError where
  | fileNotFound (path : String)
  | unsupportedType (ext : String)
  | extraction (msg : String)
deriving Repr, DecidableEq

/-- `str(e)` for each of the raised exceptions, as stored by the batch scan
into a failed record. -/
def ProcError.toMessage : ProcError → String
  | .fileNotFound p => "Document not found: " ++ p
  | .unsupportedType e => "Unsupported file type: " ++ e
  | .extraction m => m

/-- Index of the last occurrence of `c` in `cs` (Python `str.rfind`,
restricted to the found case). -/
def lastIdxOf (cs : List Char) (c : Char) : Option Nat :=
  ((cs.enum.filter (fun p => p.2 == c)).map Prod.fst).getLast?

/-- `pathlib.PurePath.suffix` on a base name: the part from the last dot,
empty when the name has no dot, only a leading dot, or ends in a dot. -/
def pathSuffix (name : String) : String :=
  match lastIdxOf name.toList '.' with
  | some i =>
      if 0 < i ∧ i < name.length - 1 then String.mk (name.toList.drop i) else ""
  | none => ""

/-- `len(content.split('\\n'))` -- the source splits on the two-character
sequence backslash-`n`, not on a newline. -/
def countLines (s : String) : Nat := (s.splitOn "\\n").length

/-- `len(content.split())`: whitespace-separated words, empties dropped. -/
def countWords (s : String) : Nat :=
  ((s.split Char.isWhitespace).filter (fun w => w ≠ "")).length

/-- `DocumentProcessor._process_txt`, over the decode outcomes of the file's
bytes (`decode enc = some text` iff Python `open(..., encoding=enc).read()`
returns `text` rather than raising `UnicodeDecodeError`).

The source only binds the local `metadata` after a successful UTF-8 read.
In the `except UnicodeDecodeError` branch it executes
`metadata[encoding] = encoding` as soon as one fallback encoding decodes,
which therefore raises `UnboundLocalError` (not caught by the inner
`except UnicodeDecodeError`); only when every fallback fails does the
`for`/`else` raise the decode error. -/
def process_txt (decode : String → Option String) : Except String (String × Metadata) :=
  match decode "utf-8" with
  | some content =>
      .ok (content,
        [("encoding", MVal.str "utf-8"),
         ("lines", MVal.num (countLines content)),
         ("words", MVal.num (countWords content)),
         ("characters", MVal.num content.length)])
  | none =>
      if ["latin-1", "cp1252", "iso-8859-1"].any (fun e => (decode e).isSome) then
        .error "UnboundLocalError: local variable metadata referenced before assignment"
      else
        .error "Could not decode file with any supported encoding"

/-- The parse of a PDF file as seen through `pypdf.PdfReader`: the per-page
`extract_text()` results and the metadata dictionary (`None` when absent). -/
structure PdfFile where
  pages : List String
  meta : Option (List (String × String))
deriving Repr, DecidableEq

/-- `d.get(k, dflt)` on an association-list dictionary. -/
def dictGetD (d : List (String × String)) (k dflt : String) : String :=
  match d.find? (fun p => p.1 == k) with
  | some p => p.2
  | none => dflt

/-- The page marker block `f"\\n--- Page {n} ---\\n{text}\\n"` (literal
backslash-`n` sequences, as written in the source). -/
def pdfPageBlock (n : Nat) (text : String) : String :=
  "\\n--- Page " ++ toString n ++ " ---\\n" ++ text ++ "\\n"

/-- The page loop of `_process_pdf`: 1-indexed enumeration, pages whose
extracted text is empty (falsy) contribute nothing. -/
def buildPdfContent (pages : List String) : String :=
  pages.enum.foldl
    (fun acc p => if p.2 = "" then acc else acc ++ pdfPageBlock (p.1 + 1) p.2) ""

/-- Python `str.strip()`: drop whitespace from both ends. -/
def pyStrip (s : String) : String :=
  String.mk
    (((s.toList.dropWhile Char.isWhitespace).reverse.dropWhile Char.isWhitespace).reverse)

/-- `DocumentProcessor._process_pdf` given the `PdfReader` outcome.  Any
internal pypdf failure is re-raised wrapped; the metadata dictionary is read
only when truthy (present and non-empty), otherwise `metadata` stays the
empty dict -- absent fields of a present dictionary default to `""`. -/
def process_pdf (parsed : Except String PdfFile) : Except String (String × Metadata) :=
  match parsed with
  | .error e => .error ("Error processing PDF: " ++ e)
  | .ok f =>
      let metadata : Metadata :=
        match f.meta with
        | some d =>
            if d.isEmpty then []
            else
              [("title", MVal.str (dictGetD d "/Title" "")),
               ("author", MVal.str (dictGetD d "/Author" "")),
               ("subject", MVal.str (dictGetD d "/Subject" "")),
               ("creator", MVal.str (dictGetD d "/Creator" "")),
               ("pages", MVal.num f.pages.length)]
        | none => []
      .ok (pyStrip (buildPdfContent f.pages), metadata)

/-- The dictionary `json.loads` produced from the AI response, after the
source's `result.get(summary, '')` / `result.get(keywords, [])` view:
either field may be missing. -/
structure InsightJson where
  summary : Option String
  keywords : Option (List String)
deriving Repr, DecidableEq

/-- `DocumentProcessor._generate_ai_insights` over the outcome of the
`try` body (chat-completion call plus `json.loads`): every exception is
caught and replaced by the fallback pair. -/
def generate_ai_insights (aiResult : Except String InsightJson)
    (filename : String) : String × List String :=
  match aiResult with
  | .ok r => (r.summary.getD "", r.keywords.getD [])
  | .error _ => ("Document: " ++ filename, [])

/-- One directory entry with the outcomes of every external interaction
`process_document` can perform on it. -/
structure FileModel where
  path : String
  name : String
  fexists : Bool
  isFile : Bool
  size : Nat
  hash : String
  now : String
  decode : String → Option String
  pdfParse : Except String PdfFile
  docxResult : Except String (String × Metadata)
  mdResult : Except String (String × Metadata)
  jsonResult : Except String (String × Metadata)
  aiResult : Except String InsightJson

/-- The keys of the `supported_types` dispatch table. -/
def supportedTypes : List String := [".pdf", ".docx", ".txt", ".md", ".json"]

/-- `self.supported_types[file_type](file_path)`: dispatch to the matching
extractor.  DOCX, Markdown and JSON extraction depend wholly on external
libraries, so their outcomes are carried by the file model directly. -/
def runExtractor (ft : String) (f : FileModel) : Except String (String × Metadata) :=
  if ft = ".pdf" then process_pdf f.pdfParse
  else if ft = ".docx" then f.docxResult
  else if ft = ".txt" then process_txt f.decode
  else if ft = ".md" then f.mdResult
  else if ft = ".json" then f.jsonResult
  else .error "unreachable: dispatch on unsupported type"

/-- `DocumentProcessor.process_document`: existence check, lower-cased
extension dispatch, extraction, AI insights, record assembly. -/
def process_document (f : FileModel) : Except ProcError SuccessRecord :=
  if f.fexists = false then .error (.fileNotFound f.path)
  else
    let ft := lower (pathSuffix f.name)
    if ft ∉ supportedTypes then .error (.unsupportedType ft)
    else
      match runExtractor ft f with
      | .error e => .error (.extraction e)
      | .ok cm =>
          let ins := generate_ai_insights f.aiResult f.name
          .ok { filename := f.name, file_type := ft, file_size := f.size,
                content := cm.1, content_length := cm.1.length,
                summary := ins.1, keywords := ins.2, metadata := cm.2,
                processed_at := f.now, file_hash := f.hash }

/-- `file_path.is_file() and file_path.suffix.lower() in self.supported_types`. -/
def eligible (f : FileModel) : Bool :=
  f.isFile && supportedTypes.contains (lower (pathSuffix f.name))

/-- The record the batch scan stores for one file: the successful record,
or on any exception the two-key failure dictionary. -/
def recordOf (f : FileModel) : DocRecord :=
  match process_document f with
  | .ok r => .success r
  | .error e => .failed e.toMessage f.now

/-- Body of the `for file_path in self.documents_path.iterdir()` loop. -/
def scanStep (acc : Corpus) (f : FileModel) : Corpus :=
  if eligible f then acc ++ [(f.name, recordOf f)] else acc

/-- `DocumentProcessor.process_all_documents` over the directory listing. -/
def process_all_documents (files : List FileModel) : Corpus :=
  files.foldl scanStep []

/-! ### Concrete fixtures -/

/-- A processed record matching the spec's kubernetes search example. -/
def kubeRecord : SuccessRecord :=
  { filename := "kubernetes-notes.md", file_type := ".md", file_size := 100,
    content := "Notes about Kubernetes clusters", content_length := 31,
    summary := "A summary of Kubernetes deployment notes",
    keywords := ["containers", "devops"],
    metadata := [], processed_at := "2024-01-01T00:00:00", file_hash := "abc" }

/-- A one-document corpus for the kubernetes scoring example. -/
def kubeCorpus : Corpus := [("kubernetes-notes.md", DocRecord.success kubeRecord)]

/-- The expected search hit for `kubeCorpus` under query `kubernetes`:
content (+3), summary (+2) and filename (+1) match, no keyword does. -/
def kubeResult : ScoredResult :=
  { filename := "kubernetes-notes.md", score := 6,
    matchedFields := ["content", "summary", "filename"],
    summary := "A summary of Kubernetes deployment notes",
    keywords := ["containers", "devops"] }

/-- `kubeCorpus` plus a failed record whose filename and error text both
contain the query string. -/
def mixedCorpus : Corpus :=
  [("kubernetes-notes.md", DocRecord.success kubeRecord),
   ("kubernetes-crash.txt",
    DocRecord.failed "could not decode kubernetes file" "2024-01-01T00:00:02")]

/-- Decode outcomes of a file that is not valid UTF-8 but decodes under
each legacy fallback encoding (e.g. the single byte 0xE9). -/
def latin1Decode : String → Option String := fun enc =>
  if enc = "utf-8" then none
  else if enc = "latin-1" then some "café"
  else if enc = "cp1252" then some "café"
  else if enc = "iso-8859-1" then some "café"
  else none

/-- A `.txt` directory entry whose bytes require the legacy-encoding
fallback. -/
def latin1File : FileModel :=
  { path := "data/documents/legacy.txt", name := "legacy.txt",
    fexists := true, isFile := true, size := 4, hash := "h1",
    now := "2024-01-01T00:00:01",
    decode := latin1Decode,
    pdfParse := Except.error "not a pdf",
    docxResult := Except.error "not a docx",
    mdResult := Except.error "not markdown",
    jsonResult := Except.error "not json",
    aiResult := Except.error "no api key" }

/-- A path that does not exist. -/
def noFile : FileModel :=
  { path := "data/documents/ghost.txt", name := "ghost.txt",
    fexists := false, isFile := false, size := 0, hash := "",
    now := "2024-01-01T00:00:03",
    decode := fun _ => none,
    pdfParse := Except.error "e", docxResult := Except.error "e",
    mdResult := Except.error "e", jsonResult := Except.error "e",
    aiResult := Except.error "e" }

/-- A well-formed Markdown file whose AI-insight call fails (malformed
generation response). -/
def mdFile : FileModel :=
  { path := "data/documents/readme.md", name := "readme.md",
    fexists := true, isFile := true, size := 5, hash := "h2",
    now := "2024-01-01T00:00:04",
    decode := fun _ => none,
    pdfParse := Except.error "e", docxResult := Except.error "e",
    mdResult := Except.ok ("hello", [("format", MVal.str "markdown")]),
    jsonResult := Except.error "e",
    aiResult := Except.error "response content was not JSON" }

/-- A parsed PDF with one page of text and no metadata dictionary. -/
def noMetaPdf : PdfFile := { pages := ["A"], meta := none }

/-- A parsed PDF whose metadata dictionary carries only `/Title`. -/
def titledPdf : PdfFile :=
  { pages := ["Hello", ""], meta := some [("/Title", "My Title")] }

/-- Two successful records that both match the query `alpha` with the same
score, to exercise sort stability. -/
def alphaRecA : SuccessRecord :=
  { filename := "a-notes.txt", file_type := ".txt", file_size := 10,
    content := "alpha beta", content_length := 10, summary := "first file",
    keywords := [], metadata := [], processed_at := "t", file_hash := "ha" }

/-- Second equal-score record for the stability example. -/
def alphaRecB : SuccessRecord :=
  { filename := "b-notes.txt", file_type := ".txt", file_size := 11,
    content := "alpha gamma", content_length := 11, summary := "second file",
    keywords := [], metadata := [], processed_at := "t", file_hash := "hb" }

/-- Corpus with two equal-score matches, in insertion order A then B. -/
def stableCorpus : Corpus :=
  [("a-notes.txt", DocRecord.success alphaRecA),
   ("b-notes.txt", DocRecord.success alphaRecB)]

/-- Expected first hit for query `alpha` on `stableCorpus`. -/
def alphaResA : ScoredResult :=
  { filename := "a-notes.txt", score := 3, matchedFields := ["content"],
    summary := "first file", keywords := [] }

/-- Expected second hit for query `alpha` on `stableCorpus`. -/
def alphaResB : ScoredResult :=
  { filename := "b-notes.txt", score := 3, matchedFields := ["content"],
    summary := "second file", keywords := [] }

/-- Statistics fixture: three successful records with content lengths 10,
20, 30 and one failed record. -/
def exStatsCorpus : Corpus :=
  [("a.txt", DocRecord.success { alphaRecA with content_length := 10 }),
   ("b.txt", DocRecord.success { alphaRecA with content_length := 20 }),
   ("c.md", DocRecord.success
     { alphaRecA with content_length := 30, file_type := ".md" }),
   ("d.txt", DocRecord.failed "boom" "t")]

/-! ### Helper lemmas -/

theorem scoreGe_trans (a b c : ScoredResult) (hab : scoreGe a b) (hbc : scoreGe b c) :
    scoreGe a c := by
  simp only [scoreGe, decide_eq_true_eq] at *
  omega

theorem scoreGe_total (a b : ScoredResult) : scoreGe a b || scoreGe b a := by
  simp only [scoreGe, Bool.or_eq_true, decide_eq_true_eq]
  omega

theorem searchEntry_eq_some {ql : String} {p : String × DocRecord} {res : ScoredResult}
    (h : searchEntry ql p = some res) :
    ∃ r, p.2 = DocRecord.success r ∧ 0 < (scoreDoc ql p.1 r).1 ∧
      res = { filename := p.1, score := (scoreDoc ql p.1 r).1,
              matchedFields := (scoreDoc ql p.1 r).2,
              summary := r.summary, keywords := r.keywords } := by
  cases hp : p.2 with
  | failed e t => simp [searchEntry, hp] at h
  | success r =>
      simp only [searchEntry, hp] at h
      split at h
      · exact ⟨r, rfl, by assumption, (Option.some.inj h).symm⟩
      · cases h

theorem searchEntry_of_pos {ql : String} {p : String × DocRecord} {r : SuccessRecord}
    (hr : p.2 = DocRecord.success r) (hs : 0 < (scoreDoc ql p.1 r).1) :
    searchEntry ql p = some
      { filename := p.1, score := (scoreDoc ql p.1 r).1,
        matchedFields := (scoreDoc ql p.1 r).2,
        summary := r.summary, keywords := r.keywords } := by
  simp [searchEntry, hr, hs]

theorem mem_search_documents {query : String} {documents : Corpus} {res : ScoredResult} :
    res ∈ search_documents query documents ↔ res ∈ searchUnsorted query documents :=
  List.mem_mergeSort

theorem search_documents_sorted (query : String) (documents : Corpus) :
    (search_documents query documents).Pairwise (fun a b => b.score ≤ a.score) := by
  have h := List.sorted_mergeSort scoreGe_trans scoreGe_total
    (searchUnsorted query documents)
  exact List.Pairwise.imp (fun hab => by simpa [scoreGe] using hab) h

theorem scoreDoc_le_seven (ql fn : String) (r : SuccessRecord) :
    (scoreDoc ql fn r).1 ≤ 7 := by
  simp only [scoreDoc]
  split_ifs <;> simp

theorem scoreDoc_matched_sublist (ql fn : String) (r : SuccessRecord) :
    (scoreDoc ql fn r).2.Sublist ["content", "summary", "keywords", "filename"] := by
  simp only [scoreDoc]
  split_ifs <;> decide

theorem scoreDoc_matched_ne_nil (ql fn : String) (r : SuccessRecord)
    (h : 0 < (scoreDoc ql fn r).1) : (scoreDoc ql fn r).2 ≠ [] := by
  simp only [scoreDoc] at h ⊢
  split_ifs at h ⊢ <;> simp_all

theorem statsFold_snd (docs : Corpus) :
    ∀ (m : List (String × Nat)) (n : Nat),
      (docs.foldl statsStep (m, n)).2 = n + (docs.map (fun p => contentLen p.2)).sum := by
  induction docs with
  | nil => intro m n; simp
  | cons p ps ih =>
      intro m n
      obtain ⟨fn, d⟩ := p
      cases d with
      | success r =>
          simp only [List.foldl_cons, statsStep, List.map_cons, List.sum_cons]
          rw [ih]
          have hc : contentLen (DocRecord.success r) = r.content_length := rfl
          rw [hc]
          omega
      | failed e t =>
          simp only [List.foldl_cons, statsStep, List.map_cons, List.sum_cons]
          rw [ih]
          have hc : contentLen (DocRecord.failed e t) = 0 := rfl
          rw [hc]
          omega

theorem foldl_scanStep_append (files : List FileModel) (acc : Corpus) :
    files.foldl scanStep acc = acc ++ files.foldl scanStep [] := by
  induction files generalizing acc with
  | nil => simp
  | cons f fs ih =>
      simp only [List.foldl_cons]
      rw [ih (scanStep acc f), ih (scanStep [] f)]
      by_cases he : eligible f <;> simp [scanStep, he]

theorem process_all_length (files : List FileModel) :
    (process_all_documents files).length = files.countP eligible := by
  induction files with
  | nil => rfl
  | cons f fs ih =>
      unfold process_all_documents at ih ⊢
      simp only [List.foldl_cons]
      rw [foldl_scanStep_append]
      by_cases he : eligible f <;>
        simp [scanStep, he, ih, List.countP_cons]

theorem mem_process_all : ∀ (files : List FileModel) (f : FileModel),
    f ∈ files → eligible f = true →
    (f.name, recordOf f) ∈ process_all_documents files := by
  intro files
  induction files with
  | nil => intro f hf; cases hf
  | cons g gs ih =>
      intro f hf he
      unfold process_all_documents
      simp only [List.foldl_cons]
      rw [foldl_scanStep_append]
      rcases List.mem_cons.mp hf with h | h
      · subst h
        exact List.mem_append.mpr (Or.inl (by simp [scanStep, he]))
      · exact List.mem_append.mpr (Or.inr (ih f h he))

/-! ### Claims -/

/-- C1: the claim says a plain-text file that fails UTF-8 decoding is
retried with latin-1, cp1252, iso-8859-1 and yields a successful record
recording the encoding used.  The code instead references the local
`metadata` before it is ever assigned (it is only bound after a successful
UTF-8 read), so the moment the first fallback encoding decodes the file the
function raises `UnboundLocalError` and extraction fails: a latin-1-only
file is never processed successfully.  This theorem evaluates the code at
such a failing input: UTF-8 decoding fails, latin-1 decoding succeeds, yet
`_process_txt` errors and `process_document` propagates the error. -/
theorem C1_txt_fallback_unbound_local :
    latin1Decode "utf-8" = none ∧
    latin1Decode "latin-1" = some "café" ∧
    process_txt latin1Decode =
      Except.error
        "UnboundLocalError: local variable metadata referenced before assignment" ∧
    process_document latin1File =
      Except.error (ProcError.extraction
        "UnboundLocalError: local variable metadata referenced before assignment") :=
  ⟨rfl, rfl, rfl, rfl⟩

/-- C2: whenever the AI insight step fails (its whole `try` body raised),
`_generate_ai_insights` returns the fallback pair
`("Document: <filename>", [])` and never propagates the failure:
`process_document` on an otherwise well-formed file still returns a
successful record carrying exactly that fallback summary and empty keyword
list. -/
theorem C2_ai_insight_fallback (f : FileModel) :
    (∀ msg fn, generate_ai_insights (Except.error msg) fn = ("Document: " ++ fn, [])) ∧
    (∀ msg cm, f.fexists = true → lower (pathSuffix f.name) ∈ supportedTypes →
      runExtractor (lower (pathSuffix f.name)) f = Except.ok cm →
      f.aiResult = Except.error msg →
      process_document f = Except.ok
        { filename := f.name, file_type := lower (pathSuffix f.name),
          file_size := f.size, content := cm.1, content_length := cm.1.length,
          summary := "Document: " ++ f.name, keywords := [],
          metadata := cm.2, processed_at := f.now, file_hash := f.hash }) := by
  constructor
  · intro msg fn; rfl
  · intro msg cm h1 h2 h3 h4
    simp [process_document, h1, h2, h3, generate_ai_insights, h4]

/-- Witness for C2: a Markdown file whose generation response is not JSON
still yields a successful record with the fallback summary and no
keywords. -/
theorem C2_ai_insight_fallback_witness :
    process_document mdFile = Except.ok
      { filename := "readme.md", file_type := ".md", file_size := 5,
        content := "hello", content_length := 5,
        summary := "Document: readme.md", keywords := [],
        metadata := [("format", MVal.str "markdown")],
        processed_at := "2024-01-01T00:00:04", file_hash := "h2" } :=
  (C2_ai_insight_fallback mdFile).2 "response content was not JSON"
    ("hello", [("format", MVal.str "markdown")]) rfl (by decide) rfl rfl

/-- C4: a full batch scan is a total function of the directory listing:
every eligible file (regular file with a supported lower-cased extension)
yields exactly one corpus record, a per-file error is stored as a failed
record carrying the error text and the processing timestamp, a per-file
success is stored as the successful record, and the scan continues past
failures. -/
theorem C4_batch_scan_never_aborts (files : List FileModel) :
    (process_all_documents files).length = files.countP eligible ∧
    ∀ f ∈ files, eligible f = true →
      (∀ e, process_document f = Except.error e →
        (f.name, DocRecord.failed (ProcError.toMessage e) f.now) ∈
          process_all_documents files) ∧
      (∀ r, process_document f = Except.ok r →
        (f.name, DocRecord.success r) ∈ process_all_documents files) := by
  refine ⟨process_all_length files, ?_⟩
  intro f hf he
  constructor
  · intro e hpe
    have h := mem_process_all files f hf he
    rw [recordOf, hpe] at h
    exact h
  · intro r hpr
    have h := mem_process_all files f hf he
    rw [recordOf, hpr] at h
    exact h

/-- Witness for C4: scanning a directory holding only the latin-1 text file
(whose processing raises) produces exactly one record, the failed record
with the error text; the scan itself completes. -/
theorem C4_batch_scan_never_aborts_witness :
    ("legacy.txt", DocRecord.failed
       "UnboundLocalError: local variable metadata referenced before assignment"
       "2024-01-01T00:00:01") ∈ process_all_documents [latin1File] :=
  ((C4_batch_scan_never_aborts [latin1File]).2 latin1File (by simp) (by decide)).1
    (ProcError.extraction
      "UnboundLocalError: local variable metadata referenced before assignment") rfl

/-- C5: `process_document` raises a distinguishable error and produces no
record when the file does not exist (file-not-found), when the lower-cased
extension is unsupported (the error carries the offending extension), or
when extraction fails (the extraction error propagates); an error result is
never a record. -/
theorem C5_processOne_distinguishable_errors (f : FileModel) :
    (f.fexists = false →
      process_document f = Except.error (ProcError.fileNotFound f.path)) ∧
    (f.fexists = true → lower (pathSuffix f.name) ∉ supportedTypes →
      process_document f =
        Except.error (ProcError.unsupportedType (lower (pathSuffix f.name)))) ∧
    (∀ e, f.fexists = true → lower (pathSuffix f.name) ∈ supportedTypes →
      runExtractor (lower (pathSuffix f.name)) f = Except.error e →
      process_document f = Except.error (ProcError.extraction e)) ∧
    (∀ err r, process_document f = Except.error err →
      process_document f ≠ Except.ok r) := by
  refine ⟨?_, ?_, ?_, ?_⟩
  · intro h; simp [process_document, h]
  · intro h1 h2; simp [process_document, h1, h2]
  · intro e h1 h2 h3; simp [process_document, h1, h2, h3]
  · intro err r h1 h2; rw [h1] at h2; cases h2

/-- Witness for C5: a missing file yields the file-not-found error, and a
`.xyz` extension yields the unsupported-type error carrying `.xyz`. -/
theorem C5_processOne_distinguishable_errors_witness :
    process_document noFile =
      Except.error (ProcError.fileNotFound "data/documents/ghost.txt") ∧
    process_document { noFile with name := "evil.XYZ", fexists := true } =
      Except.error (ProcError.unsupportedType ".xyz") :=
  ⟨(C5_processOne_distinguishable_errors noFile).1 rfl,
   (C5_processOne_distinguishable_errors
      { noFile with name := "evil.XYZ", fexists := true }).2.1 rfl (by decide)⟩

theorem countP_isSuccess_split (docs : Corpus) :
    docs.countP (fun p => isSuccess p.2) + docs.countP (fun p => !(isSuccess p.2))
      = docs.length := by
  induction docs with
  | nil => rfl
  | cons p ps ih =>
      by_cases h : isSuccess p.2 <;> simp [List.countP_cons, h] <;> omega

/-- C6: corpus statistics report the record count, the success/failure
counts (records without and with an error field), the total content length
summed over successful records only, and the average as exact division of
those two, with `0` (and no division) when there are no successful
records.  The final conjunct checks the spec's concrete example: three
successful records of lengths 10, 20, 30 plus one failed record give
4/3/1/60/20. -/
theorem C6_document_stats (documents : Corpus) :
    (get_document_stats documents).total_documents = documents.length ∧
    (get_document_stats documents).successful_processing
      = documents.countP (fun p => isSuccess p.2) ∧
    (get_document_stats documents).failed_processing
      = documents.countP (fun p => !(isSuccess p.2)) ∧
    (get_document_stats documents).total_content_length
      = (documents.map (fun p => contentLen p.2)).sum ∧
    (0 < (get_document_stats documents).successful_processing →
      (get_document_stats documents).average_content_length
        = ((get_document_stats documents).total_content_length : ℚ)
            / ((get_document_stats documents).successful_processing : ℚ)) ∧
    ((get_document_stats documents).successful_processing = 0 →
      (get_document_stats documents).average_content_length = 0) ∧
    ((get_document_stats exStatsCorpus).total_documents = 4 ∧
     (get_document_stats exStatsCorpus).successful_processing = 3 ∧
     (get_document_stats exStatsCorpus).failed_processing = 1 ∧
     (get_document_stats exStatsCorpus).total_content_length = 60 ∧
     (get_document_stats exStatsCorpus).average_content_length = 20) := by
  refine ⟨rfl, rfl, ?_, ?_, ?_, ?_, rfl, rfl, rfl, rfl, ?_⟩
  · have hs := countP_isSuccess_split documents
    have hf : (get_document_stats documents).failed_processing
        = documents.length - documents.countP (fun p => isSuccess p.2) := rfl
    rw [hf]
    omega
  · have ht : (get_document_stats documents).total_content_length
        = (documents.foldl statsStep ([], 0)).2 := rfl
    rw [ht]
    simpa using statsFold_snd documents [] 0
  · intro h
    have h2 : 0 < documents.countP (fun p => isSuccess p.2) := h
    show (if 0 < documents.countP (fun p => isSuccess p.2)
          then ((documents.foldl statsStep ([], 0)).2 : ℚ)
                 / (documents.countP (fun p => isSuccess p.2) : ℚ) else 0)
         = ((documents.foldl statsStep ([], 0)).2 : ℚ)
             / (documents.countP (fun p => isSuccess p.2) : ℚ)
    rw [if_pos h2]
  · intro h
    have h2 : documents.countP (fun p => isSuccess p.2) = 0 := h
    show (if 0 < documents.countP (fun p => isSuccess p.2)
          then ((documents.foldl statsStep ([], 0)).2 : ℚ)
                 / (documents.countP (fun p => isSuccess p.2) : ℚ) else 0)
         = 0
    rw [if_neg (by omega)]
  · show (if (0 : Nat) < 3 then ((60 : Nat) : ℚ) / ((3 : Nat) : ℚ) else 0) = 20
    norm_num

/-- Witness for C6: the empty corpus has no successful records and reports
average content length `0` without dividing. -/
theorem C6_document_stats_witness :
    (get_document_stats []).successful_processing = 0 ∧
    (get_document_stats []).average_content_length = 0 :=
  ⟨rfl, (C6_document_stats []).2.2.2.2.2.1 rfl⟩

/-- Counterexample for C8: `_process_pdf` on a PDF with **no** metadata
dictionary extracts successfully but returns an **empty** metadata
dictionary -- the five keys (title, author, subject, creator, pages) are
all absent, contradicting the claim that they are always present. -/
theorem C8_pdf_metadata_counterexample :
    process_pdf (Except.ok noMetaPdf) =
      Except.ok ("\\n--- Page 1 ---\\nA\\n", ([] : Metadata)) ∧
    (([] : Metadata).map Prod.fst).contains "title" = false ∧
    (([] : Metadata).map Prod.fst).contains "pages" = false :=
  ⟨rfl, rfl, rfl⟩

/-- C8 (amended): for every PDF that extracts successfully **and whose
metadata dictionary is present and non-empty**, the format metadata
contains exactly the five keys title, author, subject, creator and pages,
with fields absent from the dictionary mapped to empty strings; when the
metadata dictionary is absent the format metadata is the empty
dictionary. -/
theorem C8_pdf_metadata_keys (f : PdfFile) (d : List (String × String))
    (hd : f.meta = some d) (hne : d ≠ []) :
    (process_pdf (Except.ok f) =
      Except.ok (pyStrip (buildPdfContent f.pages),
        [("title", MVal.str (dictGetD d "/Title" "")),
         ("author", MVal.str (dictGetD d "/Author" "")),
         ("subject", MVal.str (dictGetD d "/Subject" "")),
         ("creator", MVal.str (dictGetD d "/Creator" "")),
         ("pages", MVal.num f.pages.length)])) ∧
    (∀ g : PdfFile, g.meta = none →
      process_pdf (Except.ok g) =
        Except.ok (pyStrip (buildPdfContent g.pages), ([] : Metadata))) ∧
    (d.find? (fun p => p.1 == "/Title") = none → dictGetD d "/Title" "" = "") := by
  refine ⟨?_, ?_, ?_⟩
  · have hne2 : d.isEmpty = false := by
      cases d with
      | nil => exact absurd rfl hne
      | cons x xs => rfl
    simp [process_pdf, hd, hne2]
  · intro g hg
    simp [process_pdf, hg]
  · intro hf
    simp [dictGetD, hf]

/-- Witness for C8 (amended): a two-page PDF (second page empty) whose
dictionary carries only `/Title` yields all five keys, with the other
string fields defaulted to `""` and the page count `2`. -/
theorem C8_pdf_metadata_keys_witness :
    process_pdf (Except.ok titledPdf) =
      Except.ok ("\\n--- Page 1 ---\\nHello\\n",
        [("title", MVal.str "My Title"), ("author", MVal.str ""),
         ("subject", MVal.str ""), ("creator", MVal.str ""),
         ("pages", MVal.num 2)]) :=
  (C8_pdf_metadata_keys titledPdf [("/Title", "My Title")] rfl (by decide)).1

/-- C3: every search result's score is the additive case-insensitive
substring score (+3 content, +2 summary, +1 at least one keyword counted
once, +1 filename) of some successful record of the corpus; every
successful record with a positive score yields a result; zero-score records
are excluded (all results have positive score); results are sorted in
descending score order; and a document matching on content, summary and
filename scores 6. -/
theorem C3_search_scoring (query : String) (documents : Corpus) :
    (∀ res ∈ search_documents query documents,
      ∃ p ∈ documents, ∃ r, p.2 = DocRecord.success r ∧ res.filename = p.1 ∧
        res.score =
          (if containsSub (lower query) (lower r.content) then 3 else 0) +
          (if containsSub (lower query) (lower r.summary) then 2 else 0) +
          (if r.keywords.any (fun kw => containsSub (lower query) (lower kw))
           then 1 else 0) +
          (if containsSub (lower query) (lower p.1) then 1 else 0) ∧
        0 < res.score) ∧
    (∀ p ∈ documents, ∀ r, p.2 = DocRecord.success r →
      0 < (scoreDoc (lower query) p.1 r).1 →
      ∃ res ∈ search_documents query documents,
        res.filename = p.1 ∧ res.score = (scoreDoc (lower query) p.1 r).1) ∧
    (search_documents query documents).Pairwise (fun a b => b.score ≤ a.score) ∧
    search_documents "kubernetes" kubeCorpus = [kubeResult] ∧
    kubeResult.score = 6 := by
  refine ⟨?_, ?_, search_documents_sorted query documents, ?_, rfl⟩
  · intro res hres
    have h1 : res ∈ searchUnsorted query documents := mem_search_documents.mp hres
    simp only [searchUnsorted] at h1
    obtain ⟨p, hp, hsome⟩ := List.mem_filterMap.mp h1
    obtain ⟨r, hr, hpos, heq⟩ := searchEntry_eq_some hsome
    refine ⟨p, hp, r, hr, ?_, ?_, ?_⟩
    · rw [heq]
    · rw [heq]; rfl
    · rw [heq]; exact hpos
  · intro p hp r hr hpos
    refine ⟨{ filename := p.1, score := (scoreDoc (lower query) p.1 r).1,
              matchedFields := (scoreDoc (lower query) p.1 r).2,
              summary := r.summary, keywords := r.keywords },
            mem_search_documents.mpr ?_, rfl, rfl⟩
    simp only [searchUnsorted]
    exact List.mem_filterMap.mpr ⟨p, hp, searchEntry_of_pos hr hpos⟩
  · have h : searchUnsorted "kubernetes" kubeCorpus = [kubeResult] := by decide
    simp [search_documents, h]

/-- Witness for C3: the kubernetes result of the one-document corpus is a
search result and carries the additive score of its source record. -/
theorem C3_search_scoring_witness :
    ∃ p ∈ kubeCorpus, ∃ r, p.2 = DocRecord.success r ∧
      kubeResult.filename = p.1 ∧
      kubeResult.score =
        (if containsSub (lower "kubernetes") (lower r.content) then 3 else 0) +
        (if containsSub (lower "kubernetes") (lower r.summary) then 2 else 0) +
        (if r.keywords.any
             (fun kw => containsSub (lower "kubernetes") (lower kw))
         then 1 else 0) +
        (if containsSub (lower "kubernetes") (lower p.1) then 1 else 0) ∧
      0 < kubeResult.score := by
  have h := C3_search_scoring "kubernetes" kubeCorpus
  exact h.1 kubeResult (by rw [h.2.2.2.1]; exact List.mem_singleton.mpr rfl)

/-- C7: no failed record ever appears in the search results -- every
result corresponds to a successful record of the corpus -- and concretely a
corpus with one matching successful record and one failed record whose
filename and error text contain the query returns only the successful
record. -/
theorem C7_search_skips_failed (query : String) (documents : Corpus) :
    (∀ res ∈ search_documents query documents,
      ∃ r : SuccessRecord, (res.filename, DocRecord.success r) ∈ documents) ∧
    search_documents "kubernetes" mixedCorpus = [kubeResult] := by
  constructor
  · intro res hres
    have h1 : res ∈ searchUnsorted query documents := mem_search_documents.mp hres
    simp only [searchUnsorted] at h1
    obtain ⟨p, hp, hsome⟩ := List.mem_filterMap.mp h1
    obtain ⟨r, hr, hpos, heq⟩ := searchEntry_eq_some hsome
    refine ⟨r, ?_⟩
    have h2 : (res.filename, DocRecord.success r) = p := by
      rw [heq]
      exact Prod.ext rfl hr.symm
    rw [h2]
    exact hp
  · have h : searchUnsorted "kubernetes" mixedCorpus = [kubeResult] := by decide
    simp [search_documents, h]

/-- Witness for C7: the only result on the mixed corpus is backed by the
successful record. -/
theorem C7_search_skips_failed_witness :
    ∃ r : SuccessRecord,
      (kubeResult.filename, DocRecord.success r) ∈ mixedCorpus := by
  have h := C7_search_skips_failed "kubernetes" mixedCorpus
  exact h.1 kubeResult (by rw [h.2]; exact List.mem_singleton.mpr rfl)

theorem length_filterMap_eq_countP {α β : Type} (f : α → Option β) (l : List α) :
    (l.filterMap f).length = l.countP (fun a => (f a).isSome) := by
  induction l with
  | nil => rfl
  | cons x xs ih =>
      cases hx : f x <;>
        simp [List.filterMap_cons, hx, List.countP_cons, ih]

theorem count_filterMap_eq_countP {α β : Type} [DecidableEq β]
    (f : α → Option β) (l : List α) (b : β) :
    (l.filterMap f).count b = l.countP (fun a => f a == some b) := by
  induction l with
  | nil => rfl
  | cons x xs ih =>
      cases hx : f x with
      | none => simp [List.filterMap_cons, hx, List.countP_cons, ih]
      | some y =>
          by_cases hyb : y = b
          · subst hyb
            simp [List.filterMap_cons, hx, List.countP_cons, ih, List.count_cons]
          · simp [List.filterMap_cons, hx, List.countP_cons, ih, List.count_cons, hyb]

/-- C9: each corpus entry contributes at most one result: the multiplicity
of every result in the search output equals the number of corpus entries
whose loop body produces exactly that result, and the number of results
equals the number of contributing entries (hence is at most the corpus
size).  Every result has a score between 1 and 7 inclusive and a non-empty
matched-fields list that is a subsequence of
[content, summary, keywords, filename] in that order. -/
theorem C9_search_result_invariants (query : String) (documents : Corpus) :
    (∀ res : ScoredResult,
      (search_documents query documents).count res
        = documents.countP (fun p => searchEntry (lower query) p == some res)) ∧
    (search_documents query documents).length
      = documents.countP (fun p => (searchEntry (lower query) p).isSome) ∧
    (search_documents query documents).length ≤ documents.length ∧
    ∀ res ∈ search_documents query documents,
      1 ≤ res.score ∧ res.score ≤ 7 ∧ res.matchedFields ≠ [] ∧
      res.matchedFields.Sublist ["content", "summary", "keywords", "filename"] := by
  have hlen : (search_documents query documents).length
      = documents.countP (fun p => (searchEntry (lower query) p).isSome) := by
    simp only [search_documents, List.length_mergeSort, searchUnsorted]
    exact length_filterMap_eq_countP _ _
  refine ⟨?_, hlen, ?_, ?_⟩
  · intro res
    have hperm : List.Perm (search_documents query documents)
        (searchUnsorted query documents) :=
      List.mergeSort_perm _ _
    rw [hperm.count_eq res]
    simp only [searchUnsorted]
    exact count_filterMap_eq_countP _ _ _
  · rw [hlen]
    exact List.countP_le_length _
  · intro res hres
    have h1 : res ∈ searchUnsorted query documents := mem_search_documents.mp hres
    simp only [searchUnsorted] at h1
    obtain ⟨p, hp, hsome⟩ := List.mem_filterMap.mp h1
    obtain ⟨r, hr, hpos, heq⟩ := searchEntry_eq_some hsome
    refine ⟨?_, ?_, ?_, ?_⟩
    · rw [heq]; exact hpos
    · rw [heq]; exact scoreDoc_le_seven _ _ _
    · rw [heq]; exact scoreDoc_matched_ne_nil _ _ _ hpos
    · rw [heq]; exact scoreDoc_matched_sublist _ _ _

/-- Witness for C9: on the kubernetes corpus the single result's
multiplicity equals the number of entries producing it, and the result
satisfies all the per-result invariants. -/
theorem C9_search_result_invariants_witness :
    ((search_documents "kubernetes" kubeCorpus).count kubeResult
       = kubeCorpus.countP
           (fun p => searchEntry (lower "kubernetes") p == some kubeResult)) ∧
    (1 ≤ kubeResult.score ∧ kubeResult.score ≤ 7 ∧ kubeResult.matchedFields ≠ [] ∧
     kubeResult.matchedFields.Sublist ["content", "summary", "keywords", "filename"]) := by
  have h := C9_search_result_invariants "kubernetes" kubeCorpus
  refine ⟨h.1 kubeResult, ?_⟩
  refine h.2.2.2 kubeResult ?_
  have hs : searchUnsorted "kubernetes" kubeCorpus = [kubeResult] := by decide
  exact mem_search_documents.mpr (by rw [hs]; exact List.mem_singleton.mpr rfl)

/-- C10: search is a pure function of query and corpus (two runs coincide
definitionally), and the descending sort is stable: two results with equal
scores keep the order in which their records were reached in the corpus
iteration.  Concretely, two equal-score matches come back in insertion
order. -/
theorem C10_search_pure_and_stable (query : String) (documents : Corpus)
    (a b : ScoredResult)
    (hab : List.Sublist [a, b] (searchUnsorted query documents))
    (hscore : a.score = b.score) :
    search_documents query documents = search_documents query documents ∧
    List.Sublist [a, b] (search_documents query documents) ∧
    search_documents "alpha" stableCorpus = [alphaResA, alphaResB] := by
  refine ⟨rfl, ?_, ?_⟩
  · have hge : scoreGe a b := by simp [scoreGe, hscore]
    exact List.pair_sublist_mergeSort scoreGe_trans scoreGe_total hge hab
  · have h : searchUnsorted "alpha" stableCorpus = [alphaResA, alphaResB] := by decide
    have hsorted : List.Pairwise (fun x y : ScoredResult => scoreGe x y = true)
        [alphaResA, alphaResB] := by decide
    simp only [search_documents, h]
    exact List.mergeSort_of_sorted hsorted

/-- Witness for C10: the two equal-score results of the stability corpus
appear in the sorted output in their insertion order. -/
theorem C10_search_pure_and_stable_witness :
    List.Sublist [alphaResA, alphaResB] (search_documents "alpha" stableCorpus) :=
  ((C10_search_pure_and_stable "alpha" stableCorpus alphaResA alphaResB
      (by decide) rfl).2).1

end DocProc
